import Mathlib

/-!
Verification of the VERTEX VS Code extension's client-side analysis code:
a shallow embedding of its navigation state machine, import resolver,
declaration/import extractors, dead-code aggregation, request timeouts and
project-file collection, with theorems settling the specification claims.
-/

namespace Vertex

/-! ### Basic character/string utilities mirroring the JavaScript primitives -/

/-- The character class matched by the JavaScript regex `\s` (ASCII part). -/
def jsIsSpace (c : Char) : Bool :=
  c == ' ' || c == '\t' || c == '\n' || c == '\r' || c == '\x0b' || c == '\x0c'

/-- JavaScript `String.prototype.trim`. -/
def jsTrim (s : String) : String :=
  ⟨((s.data.dropWhile jsIsSpace).reverse.dropWhile jsIsSpace).reverse⟩

/-- Auxiliary splitter: JavaScript `split(sep)` on character lists. -/
def splitOnCharAux (sep : Char) : List Char → List Char → List (List Char)
  | [], cur => [cur.reverse]
  | c :: cs, cur =>
      if c == sep then cur.reverse :: splitOnCharAux sep cs []
      else splitOnCharAux sep cs (c :: cur)

/-- JavaScript `s.split(sep)` for a one-character separator. -/
def splitStr (sep : Char) (s : String) : List String :=
  (splitOnCharAux sep s.data []).map (fun l => ⟨l⟩)

/-- JavaScript `parts.join("/")`. -/
def joinSlash : List String → String
  | [] => ""
  | [x] => x
  | x :: y :: rest => x ++ "/" ++ joinSlash (y :: rest)

/-- Whether a string contains a given character (JS `includes` for 1-char needle). -/
def containsChar (c : Char) (s : String) : Bool := s.data.contains c

/-- JavaScript `replace(/[\(\)]/g, '')`: delete every parenthesis. -/
def removeAllParens (s : String) : String :=
  ⟨s.data.filter (fun c => !(c == '(' || c == ')'))⟩

/-- Delete the first occurrence of a character (JS `replace('(', '')`). -/
def removeFirstChar (c : Char) : List Char → List Char
  | [] => []
  | x :: xs => if x == c then xs else x :: removeFirstChar c xs

/-- JavaScript `s.replace('(', '')`. -/
def removeFirstParen (s : String) : String := ⟨removeFirstChar '(' s.data⟩

/-- First character of the identifier class `[a-zA-Z_]`. -/
def isIdentStart (c : Char) : Bool := c.isAlpha || c == '_'

/-- Identifier continuation class `[a-zA-Z0-9_]`. -/
def isIdentChar (c : Char) : Bool := c.isAlphanum || c == '_'

/-- The class `[a-zA-Z0-9_\.]` used for dotted module paths. -/
def isDottedChar (c : Char) : Bool := c.isAlphanum || c == '_' || c == '.'

/-- Whether `needle` is a prefix of `hay` (plain list comparison). -/
def listStartsWith (hay needle : List Char) : Bool := hay.take needle.length == needle

/-- First index at which `needle` occurs in `hay`, JS `indexOf` style. -/
def indexOfFrom (hay needle : List Char) (i : Nat) : Int :=
  match hay with
  | [] => if needle.isEmpty then (i : Int) else -1
  | _ :: rest =>
      if listStartsWith hay needle then (i : Int)
      else indexOfFrom rest needle (i + 1)

/-- JavaScript `hay.indexOf(needle)` (yields `-1` when absent). -/
def jsIndexOf (hay needle : String) : Int := indexOfFrom hay.data needle.data 0

/-- JavaScript `%` on integers: remainder with the sign of the dividend
(the divisors in this development are always positive). -/
def jsRem (a b : Int) : Int := if a < 0 then -((-a) % b) else a % b

/-! ### Navigation state machine (highlightProvider)

State shared by `nextLockedCaller`, `prevLockedCaller`, `lockFunctionHighlights`,
`unlockFunctionHighlights` and `updateCallerHighlights`:
`locked`, `lockedCallerOccurrences` and `lockedCallerIndex`.
-/

/-- One caller occurrence, as stored in `lockedCallerOccurrences`. -/
structure CallerOccurrence where
  line : Int
  column : Int
  file_path : Option String
deriving DecidableEq, Repr

/-- The module-level mutable navigation state of the highlight provider. -/
structure NavState where
  locked : Bool
  lockedCallerOccurrences : List CallerOccurrence
  lockedCallerIndex : Int
deriving DecidableEq, Repr

/-- The initial state: `locked = null`, empty occurrence list, index `-1`. -/
def navInit : NavState := ⟨false, [], -1⟩

/-- `nextLockedCaller`: guarded by active editor, lock and non-empty list;
returns the new state and whether the guard notification was shown.
`lockedCallerIndex = (lockedCallerIndex + 1) % lockedCallerOccurrences.length`. -/
def nextLockedCaller (hasEditor : Bool) (s : NavState) : NavState × Bool :=
  if !hasEditor || !s.locked || s.lockedCallerOccurrences.length == 0 then
    (s, true)
  else
    let i := jsRem (s.lockedCallerIndex + 1) (s.lockedCallerOccurrences.length : Int)
    ({ s with lockedCallerIndex := i }, false)

/-- `prevLockedCaller`: same guard;
`lockedCallerIndex = (lockedCallerIndex - 1 + length) % length`. -/
def prevLockedCaller (hasEditor : Bool) (s : NavState) : NavState × Bool :=
  if !hasEditor || !s.locked || s.lockedCallerOccurrences.length == 0 then
    (s, true)
  else
    let i := jsRem (s.lockedCallerIndex - 1 + (s.lockedCallerOccurrences.length : Int))
      (s.lockedCallerOccurrences.length : Int)
    ({ s with lockedCallerIndex := i }, false)

/-- `unlockFunctionHighlights`: clears the lock, the occurrence list and the index. -/
def unlockFunctionHighlights : NavState := ⟨false, [], -1⟩

/-- `lockFunctionHighlights`. `editorIsPython`: an active Python editor exists
(otherwise the function returns before touching state). `codeEmpty`: the
document text is empty/whitespace (early return *after* `locked` was set).
`fetched`: the backend's caller list (`some`) or a thrown error (`none`), in
which case the catch block calls `unlockFunctionHighlights`. On success the
occurrence list is replaced and `lockedCallerIndex = 0`. -/
def lockFunctionHighlights (editorIsPython codeEmpty : Bool)
    (fetched : Option (List CallerOccurrence)) (s : NavState) : NavState :=
  if !editorIsPython then s
  else
    let s1 : NavState := { s with locked := true }
    if codeEmpty then s1
    else
      match fetched with
      | some callers => ⟨true, callers, 0⟩
      | none => unlockFunctionHighlights

/-- `updateCallerHighlights` (its effect on the navigation state): when an
active Python editor with non-empty text exists and a function is locked, the
occurrence list is replaced by the freshly fetched callers and the index is
reset to `0` if it is `≥` the new length; any failure (`none`) or the guards
leave the state unchanged. -/
def updateCallerHighlights (editorIsPython codeEmpty : Bool)
    (fetched : Option (List CallerOccurrence)) (s : NavState) : NavState :=
  if !editorIsPython then s
  else if codeEmpty then s
  else if !s.locked then s
  else
    match fetched with
    | some callers =>
        let s1 : NavState := { s with lockedCallerOccurrences := callers }
        if s1.lockedCallerIndex ≥ (callers.length : Int) then
          { s1 with lockedCallerIndex := 0 }
        else s1
    | none => s

/-! ### ImportResolver

The filesystem (`fs.existsSync`) is an explicit parameter `fs : String → Bool`.
The resolver's `importStack` cycle guard and `depth` guard are inert for the
top-level, non-recursive calls modelled here (the stack is empty on entry and
`depth = 0 ≤ maxDepth`), so they do not appear in the definitions.
-/

/-- An entry of the resolver's `packageMap`. -/
structure PackageInfo where
  path : String
  hasInit : Bool
  submodules : List String
deriving DecidableEq, Repr

/-- `findModuleFile`: try `basePath + ".py"`, then `basePath + "/__init__.py"`. -/
def findModuleFile (fs : String → Bool) (basePath : String) : Option String :=
  if fs (basePath ++ ".py") then some (basePath ++ ".py")
  else if fs (basePath ++ "/__init__.py") then some (basePath ++ "/__init__.py")
  else none

/-- Number of leading dots of an import spec (the regex `^\.+` match length). -/
def leadingDots (s : String) : Nat := (s.data.takeWhile (fun c => c == '.')).length

/-- The string with its leading dots removed (`replace(/^\.+/, '')`). -/
def stripLeadingDots (s : String) : String := ⟨s.data.dropWhile (fun c => c == '.')⟩

/-- `ImportResolver.resolveRelativeImport`. `pathParts.splice(-dotCount)` keeps
the first `length - dotCount` components (and, as in JavaScript, keeps nothing
when `dotCount = 0`, since `splice(-0)` is `splice(0)`). -/
def resolveRelativeImport (fs : String → Bool) (currentPath relativeImport : String) :
    Option String :=
  let dotCount := leadingDots relativeImport
  let pathParts := splitStr '/' currentPath
  if dotCount > pathParts.length then none
  else
    let kept := if dotCount == 0 then ([] : List String)
      else pathParts.take (pathParts.length - dotCount)
    let importPath := stripLeadingDots relativeImport
    findModuleFile fs (joinSlash kept ++ "/" ++ importPath)

/-- JavaScript `importPath.replace(/\./g, '/')`. -/
def dotsToSlashes (s : String) : String :=
  ⟨s.data.map (fun c => if c == '.' then '/' else c)⟩

/-- `ImportResolver.resolveAbsoluteImport`: look up the first dotted segment in
the package map; try the submodule file when the full path is a known
submodule; else try the package `__init__`; else fall back to a
workspace-root-relative lookup. -/
def resolveAbsoluteImport (fs : String → Bool) (workspaceRoot : String)
    (packageMap : List (String × PackageInfo)) (importPath : String) : Option String :=
  let packageName := (splitStr '.' importPath).headD ""
  let fallback := findModuleFile fs (workspaceRoot ++ "/" ++ dotsToSlashes importPath)
  match packageMap.lookup packageName with
  | none => fallback
  | some pkg =>
      let fromSub :=
        if pkg.submodules.contains importPath then
          findModuleFile fs (pkg.path ++ "/" ++ dotsToSlashes importPath)
        else none
      match fromSub with
      | some modulePath => some modulePath
      | none =>
          if pkg.hasInit then
            match findModuleFile fs (pkg.path ++ "/__init__.py") with
            | some initPath => some initPath
            | none => fallback
          else fallback

/-! ### Source extractor: functions and classes -/

/-- `getIndentLevel`: length of the leading-whitespace match `^\s*`. -/
def getIndentLevel (line : String) : Nat := (line.data.takeWhile jsIsSpace).length

/-- Deterministic rendering of the declaration regexes
`^\s*class\s+([a-zA-Z_][a-zA-Z0-9_]*)\s*[:\(]` and
`^\s*def\s+([a-zA-Z_][a-zA-Z0-9_]*)\s*\(`: optional indentation, the keyword,
at least one space, an identifier (maximal munch — equivalent to the regex
because none of `\s`, `:`, `(` are identifier characters), optional spaces and
a closing delimiter. Returns the captured name. -/
def matchDeclLine (kw : List Char) (closers : List Char) (line : String) : Option String :=
  let cs := line.data.dropWhile jsIsSpace
  if listStartsWith cs kw then
    match cs.drop kw.length with
    | [] => none
    | c :: r1 =>
        if jsIsSpace c then
          match (c :: r1).dropWhile jsIsSpace with
          | [] => none
          | d :: r2 =>
              if isIdentStart d then
                let nm := (d :: r2).takeWhile isIdentChar
                match ((d :: r2).drop nm.length).dropWhile jsIsSpace with
                | [] => none
                | e :: _ => if closers.contains e then some ⟨nm⟩ else none
              else none
        else none
  else none

/-- The `class` header pattern of `extractFunctionsAndClasses`. -/
def classMatch (line : String) : Option String := matchDeclLine "class".data [':', '('] line

/-- The `def` pattern of `extractFunctionsAndClasses` (and of
`buildProjectContext`'s symbol-table scan). -/
def defMatch (line : String) : Option String := matchDeclLine "def".data ['('] line

/-- Mirror of the extractor's `ClassInfo` (methods are `(name, line)` pairs). -/
structure PyClassInfo where
  name : String
  methods : List (String × Nat)
  start_line : Nat
  end_line : Nat
deriving DecidableEq, Repr

/-- Loop state of `extractFunctionsAndClasses`. -/
structure ExtractState where
  functions : List (String × Nat)
  classes : List PyClassInfo
  currentClass : Option PyClassInfo
  currentIndent : Nat
deriving DecidableEq, Repr

/-- One iteration of the `extractFunctionsAndClasses` loop on line index `i`
(`total` is `lines.length`, the placeholder `end_line` of a freshly opened
class). -/
def extractStep (total i : Nat) (line : String) (st : ExtractState) : ExtractState :=
  let indent := getIndentLevel line
  match classMatch line with
  | some nm =>
      let closed := match st.currentClass with
        | some c => st.classes ++ [{ c with end_line := i }]
        | none => st.classes
      { st with classes := closed
                currentClass := some ⟨nm, [], i + 1, total⟩
                currentIndent := indent }
  | none =>
  match defMatch line with
  | some nm =>
      match st.currentClass with
      | some c =>
          if indent > st.currentIndent then
            { st with currentClass := some { c with methods := c.methods ++ [(nm, i + 1)] } }
          else
            { st with functions := st.functions ++ [(nm, i + 1)] }
      | none => { st with functions := st.functions ++ [(nm, i + 1)] }
  | none =>
      match st.currentClass with
      | some c =>
          if indent ≤ st.currentIndent && jsTrim line != "" then
            { st with classes := st.classes ++ [{ c with end_line := i }]
                      currentClass := none }
          else st
      | none => st

/-- The extractor loop over the indexed lines. -/
def extractGo (total : Nat) : Nat → List String → ExtractState → ExtractState
  | _, [], st => st
  | i, l :: ls, st => extractGo total (i + 1) ls (extractStep total i l st)

/-- `extractFunctionsAndClasses`: standalone functions and classes (with their
methods) of a file's text; a class still open at end of input is closed with
`end_line = lines.length`. -/
def extractFunctionsAndClasses (content : String) :
    List (String × Nat) × List PyClassInfo :=
  let lines := splitStr '\n' content
  let st := extractGo lines.length 0 lines ⟨[], [], none, 0⟩
  let classes := match st.currentClass with
    | some c => st.classes ++ [{ c with end_line := lines.length }]
    | none => st.classes
  (st.functions, classes)

/-! ### Source extractor: imports -/

/-- An entry of `extractImports`' result. The source fields `import` and
`alias` are keywords/tokens in Lean and are called `imp` and `aliasName`. -/
structure ImportRecord where
  type : String
  module : String
  imp : Option String
  aliasName : Option String
  line : Nat
  column : Int
deriving DecidableEq, Repr

/-- Deterministic rendering of the alias regex
`^([a-zA-Z0-9_\.]+)\s+as\s+([a-zA-Z0-9_]+)$` (maximal munch is equivalent to
the backtracking regex because whitespace is in neither character class). -/
def aliasMatch (item : String) : Option (String × String) :=
  let cs := item.data
  let g1 := cs.takeWhile isDottedChar
  if g1.isEmpty then none
  else
    let r1 := cs.drop g1.length
    if (r1.takeWhile jsIsSpace).isEmpty then none
    else
      let r2 := r1.dropWhile jsIsSpace
      if listStartsWith r2 "as".data then
        match r2.drop 2 with
        | [] => none
        | c :: r3 =>
            if jsIsSpace c then
              let g2 := (c :: r3).dropWhile jsIsSpace
              if !g2.isEmpty && g2.all isIdentChar then some (⟨g1⟩, ⟨g2⟩) else none
            else none
      else none

/-- The part `import\s+(.+)$` shared by both import regexes, applied at the
start of `cs`; returns the capture group. (When everything after the
whitespace run is empty, the regex still matches by handing the last
whitespace character to `(.+)`, provided the run has length ≥ 2.) -/
def importKeywordRest (cs : List Char) : Option (List Char) :=
  if listStartsWith cs "import".data then
    let rest := cs.drop 6
    let w := rest.takeWhile jsIsSpace
    let r := rest.dropWhile jsIsSpace
    if w.isEmpty then none
    else if !r.isEmpty then some r
    else if w.length ≥ 2 then some (w.drop (w.length - 1))
    else none
  else none

/-- The regular-import regex `^import\s+(.+)$`; returns the capture. -/
def importMatch (line : String) : Option String :=
  (importKeywordRest line.data).map (fun l => ⟨l⟩)

/-- The from-import regex `^from\s+([\.a-zA-Z0-9_]+)\s+import\s+(.+)$`;
returns the module path and the import-list capture. -/
def fromImportMatch (line : String) : Option (String × String) :=
  let cs := line.data
  if listStartsWith cs "from".data then
    let r1 := cs.drop 4
    if (r1.takeWhile jsIsSpace).isEmpty then none
    else
      let r2 := r1.dropWhile jsIsSpace
      let m := r2.takeWhile isDottedChar
      if m.isEmpty then none
      else
        let r3 := r2.drop m.length
        if (r3.takeWhile jsIsSpace).isEmpty then none
        else
          match importKeywordRest (r3.dropWhile jsIsSpace) with
          | some cap => some (⟨m⟩, ⟨cap⟩)
          | none => none
  else none

/-- Records produced for one `import …` statement: split the capture on
commas, trim, and read an optional alias. `column` is `lines[i].indexOf(item)`
on the original (untrimmed) source line. -/
def parseRegularImports (origLine : String) (i : Nat) (caps : String) : List ImportRecord :=
  ((splitStr ',' caps).map jsTrim).map (fun module =>
    match aliasMatch module with
    | some (m, a) => ⟨"import", m, none, some a, i + 1, jsIndexOf origLine module⟩
    | none => ⟨"import", module, none, none, i + 1, jsIndexOf origLine module⟩)

/-- Records produced for one `from M import …` statement: one record per
non-empty item, skipping the bare star. -/
def parseFromImports (origLine : String) (i : Nat) (modulePath caps : String) :
    List ImportRecord :=
  ((splitStr ',' caps).map jsTrim).foldl (fun acc item =>
    if item == "" then acc
    else
      match aliasMatch item with
      | some (g1, g2) =>
          acc ++ [⟨"from_import", modulePath, some g1, some g2, i + 1, jsIndexOf origLine item⟩]
      | none =>
          if item != "*" then
            acc ++ [⟨"from_import", modulePath, some item, none, i + 1, jsIndexOf origLine item⟩]
          else acc) []

/-- The per-line regex dispatch of `extractImports` (regular imports are
checked before from-imports). -/
def parseImportLine (origLine : String) (i : Nat) (line : String) : List ImportRecord :=
  match importMatch line with
  | some caps => parseRegularImports origLine i caps
  | none =>
      match fromImportMatch line with
      | some (m, caps) => parseFromImports origLine i m caps
      | none => []

/-- One iteration of the `extractImports` loop. The state is the pending
`multiLineImport` accumulator and the records so far. While a multi-line
statement is open, the code sets `line = multiLineImport + ' ' + trimmed`; if
no `)` appeared, executes `multiLineImport += ' ' + line` — appending the
already-prefixed `line`, exactly as the source does. On the closing line all
parentheses are removed and the joined line falls through to the regexes. -/
def extractImportsStep (i : Nat) (origLine : String)
    (st : Option String × List ImportRecord) : Option String × List ImportRecord :=
  let t := jsTrim origLine
  match st.1 with
  | some m =>
      let line := m ++ " " ++ t
      if containsChar ')' line then
        (none, st.2 ++ parseImportLine origLine i (removeAllParens line))
      else
        (some (m ++ " " ++ line), st.2)
  | none =>
      if containsChar '(' t && !containsChar ')' t then
        (some (removeFirstParen t), st.2)
      else
        (none, st.2 ++ parseImportLine origLine i t)

/-- The `extractImports` loop over the indexed lines. -/
def extractImportsGo :
    Nat → List String → Option String × List ImportRecord →
      Option String × List ImportRecord
  | _, [], st => st
  | i, l :: ls, st => extractImportsGo (i + 1) ls (extractImportsStep i l st)

/-- `extractImports` on a file's text. -/
def extractImports (content : String) : List ImportRecord :=
  (extractImportsGo 0 (splitStr '\n' content) (none, [])).2

/-! ### Dead-code aggregation (deadCodeProvider) -/

/-- A dead function as reported by the backend. -/
structure DeadFunction where
  name : String
  line : Nat
  end_line : Nat
  message : String
deriving DecidableEq, Repr

/-- A backend dead-code report. -/
structure DeadCodeReport where
  dead_functions : List DeadFunction
deriving DecidableEq, Repr

/-- The per-file analysis loop of `updateProjectWideDeadCodeDiagnostics`:
each target file is analyzed inside its own `try`/`catch`; a failure is logged
and skipped, a success contributes its `dead_functions` to the aggregate. The
per-file call (`getDeadCodeFromProject`, including its own throw on a missing
or empty target) is the parameter `backend`. -/
def updateProjectWideDeadCodeDiagnostics
    (backend : String → Except String DeadCodeReport) (files : List String) :
    List DeadFunction :=
  files.foldl (fun acc targetFile =>
    match backend targetFile with
    | .ok report => acc ++ report.dead_functions
    | .error _ => acc) []

/-! ### Request timeouts (BackendClient.request) -/

/-- The per-request timeout chosen by `BackendClient.request`: 90 s for
`/deadcode`, `/codelens` and `/analyze-project`, otherwise the 15 s default. -/
def requestTimeoutMs (endpoint : String) : Nat :=
  if endpoint == "/deadcode" || endpoint == "/codelens" || endpoint == "/analyze-project"
  then 90000 else 15000

/-- Endpoint used by `BackendClient.analyze`. -/
def analyzeEndpoint : String := "/analyze"

/-- Endpoint used by `BackendClient.analyzeProject`. -/
def analyzeProjectEndpoint : String := "/analyze-project"

/-- Endpoint used by `BackendClient.navigate`. -/
def navigateEndpoint : String := "/navigate"

/-- Endpoint used by `BackendClient.getHighlights`. -/
def highlightEndpoint : String := "/highlight"

/-- Endpoint used by `BackendClient.getHighlightsFromProject`
(cross-file highlight extraction). -/
def extractHighlightsEndpoint : String := "/extract-highlights"

/-- Endpoint used by `BackendClient.getDeadCode` and
`BackendClient.getDeadCodeFromProject`. -/
def deadcodeEndpoint : String := "/deadcode"

/-- Endpoint used by `BackendClient.getCodeLens` and
`BackendClient.getCodeLensFromProject`. -/
def codelensEndpoint : String := "/codelens"

/-! ### Project-file collection (projectAnalysisUtils) -/

/-- The read loop of `collectProjectFiles`: unreadable files are skipped. -/
def readProjectFiles (fileList : List String) (readF : String → Option String) :
    List (String × String) :=
  fileList.foldl (fun acc f =>
    match readF f with
    | some content => acc ++ [(f, content)]
    | none => acc) []

/-- `collectProjectFiles`: `matched` is the workspace's `findFiles` result
after exclusion patterns, `readF` the file reader. When more than
`MAX_FILES = 500` files matched, a warning is shown and the list is truncated
(`splice(MAX_FILES)`) to its first 500 entries. Returns the warned flag and
the path→content map (as an association list). -/
def collectProjectFiles (matched : List String) (readF : String → Option String) :
    Bool × List (String × String) :=
  let warned := matched.length > 500
  let limited := if matched.length > 500 then matched.take 500 else matched
  (warned, readProjectFiles limited readF)

/-! ### Concrete inputs and claim predicates used by the theorems -/

/-- A sample three-element caller-occurrence list. -/
def occ3 : List CallerOccurrence := [⟨1, 0, none⟩, ⟨2, 0, none⟩, ⟨3, 0, none⟩]

/-- The navigation-cursor invariant asserted by claim C2, modelled from the
spec's words for comparison with the code: the index is `-1` exactly when no
function is locked, and otherwise a valid index into a non-empty occurrence
list. -/
def claimNavInvariant (s : NavState) : Prop :=
  (s.lockedCallerIndex = -1 ↔ s.locked = false) ∧
  (s.locked = true →
    s.lockedCallerOccurrences ≠ [] ∧ 0 ≤ s.lockedCallerIndex ∧
      s.lockedCallerIndex < (s.lockedCallerOccurrences.length : Int))

/-- The invariant the code actually maintains: unlocked states carry an empty
list and index `-1`; locked states keep the index in `[-1, max 1 length)`
(index `0` over an empty list after locking a caller-less function, and index
`-1` while locked after locking inside an empty document). -/
def navInv (s : NavState) : Prop :=
  (s.locked = false → s.lockedCallerOccurrences = [] ∧ s.lockedCallerIndex = -1) ∧
  (s.locked = true →
    -1 ≤ s.lockedCallerIndex ∧
      s.lockedCallerIndex < max 1 (s.lockedCallerOccurrences.length : Int))

/-- Filesystem with exactly one file, `/x.py`, at the root. -/
def rootXFs : String → Bool := fun p => p == "/x.py"

/-- Filesystem with exactly the package marker `a/__init__.py`. -/
def pkgAFs : String → Bool := fun p => p == "a/__init__.py"

/-- Package map declaring package `a` at path `a` with an `__init__` file. -/
def pkgAMap : List (String × PackageInfo) := [("a", ⟨"a", true, []⟩)]

/-- A class whose method `m` contains a nested function `inner`. -/
def nestedDefExample : String :=
  "class C:\n    def m(self):\n        def inner():\n            pass"

/-- Indentation of 1-based line `n` of `content`. -/
def lineIndentAt (content : String) (n : Nat) : Nat :=
  getIndentLevel ((splitStr '\n' content).getD (n - 1) "")

/-- The method rule asserted by claim C5, modelled from the spec's words for
comparison with the code: every method of an extracted class sits at one
common indentation exactly one level deeper than the `class` line. -/
def methodsAtOneIndentLevel (content : String) : Prop :=
  ∀ c ∈ (extractFunctionsAndClasses content).2, ∃ u : Nat, 0 < u ∧
    ∀ m ∈ c.methods, lineIndentAt content m.2 = lineIndentAt content c.start_line + u

/-- A `from … import` whose parenthesized name list spans three continuation
lines. -/
def multiLineImportExample : String := "from m import (\n    a,\n    b,\n    c)"

/-! ### Lemmas -/

theorem jsRem_eq_emod (a n : Int) (ha : 0 ≤ a) : jsRem a n = a % n := by
  unfold jsRem
  rw [if_neg (by omega)]

theorem jsRem_nonneg_lt (a n : Int) (ha : 0 ≤ a) (hn : 0 < n) :
    0 ≤ jsRem a n ∧ jsRem a n < n := by
  rw [jsRem_eq_emod a n ha]
  exact ⟨Int.emod_nonneg a (by omega), Int.emod_lt_of_pos a hn⟩

/-! ### C1: wrap-around navigation -/

/-- C1: with an active editor, a locked function and a non-empty occurrence
list of length `n`, `nextLockedCaller` replaces the (non-negative) index `i`
by `(i + 1) mod n` and `prevLockedCaller` by `(i - 1 + n) mod n`, leaving the
rest of the state unchanged; in particular with `n = 3` wrap-around sends
index `2` to `0` under `next` and index `0` to `2` under `prev`. When no
function is locked or the list is empty, both operations return the state
unchanged and show the user notification. -/
theorem nextPrevLockedCaller_wraparound (s : NavState) (hasEditor : Bool) :
    (hasEditor = true → s.locked = true → s.lockedCallerOccurrences ≠ [] →
      0 ≤ s.lockedCallerIndex →
      (nextLockedCaller hasEditor s).1 =
        { s with lockedCallerIndex :=
            (s.lockedCallerIndex + 1) % (s.lockedCallerOccurrences.length : Int) } ∧
      (prevLockedCaller hasEditor s).1 =
        { s with lockedCallerIndex :=
            (s.lockedCallerIndex - 1 + (s.lockedCallerOccurrences.length : Int)) %
              (s.lockedCallerOccurrences.length : Int) }) ∧
    (s.locked = false ∨ s.lockedCallerOccurrences = [] →
      nextLockedCaller hasEditor s = (s, true) ∧
      prevLockedCaller hasEditor s = (s, true)) ∧
    ((nextLockedCaller true ⟨true, occ3, 2⟩).1.lockedCallerIndex = 0 ∧
      (prevLockedCaller true ⟨true, occ3, 0⟩).1.lockedCallerIndex = 2) := by
  refine ⟨?_, ?_, by decide⟩
  · intro hEd hLock hne hidx
    have hlen : s.lockedCallerOccurrences.length ≠ 0 :=
      (List.length_pos.mpr hne).ne'
    have hlen' : (0 : Int) < (s.lockedCallerOccurrences.length : Int) := by
      omega
    constructor
    · have h1 : (nextLockedCaller hasEditor s).1 =
          { s with lockedCallerIndex :=
              jsRem (s.lockedCallerIndex + 1) (s.lockedCallerOccurrences.length : Int) } := by
        simp only [nextLockedCaller, hEd, hLock, Bool.not_true, Bool.false_or]
        rw [if_neg (by simp [hlen])]
      rw [h1, jsRem_eq_emod (s.lockedCallerIndex + 1) _ (by omega)]
    · have h1 : (prevLockedCaller hasEditor s).1 =
          { s with lockedCallerIndex :=
              (jsRem (s.lockedCallerIndex - 1 + (s.lockedCallerOccurrences.length : Int))
                (s.lockedCallerOccurrences.length : Int)) } := by
        simp only [prevLockedCaller, hEd, hLock, Bool.not_true, Bool.false_or]
        rw [if_neg (by simp [hlen])]
      rw [h1, jsRem_eq_emod
        (s.lockedCallerIndex - 1 + (s.lockedCallerOccurrences.length : Int)) _ (by omega)]
  · intro h
    rcases h with h | h
    · constructor
      · simp [nextLockedCaller, h]
      · simp [prevLockedCaller, h]
    · constructor
      · simp [nextLockedCaller, h]
      · simp [prevLockedCaller, h]

/-- Witness for C1 at a concrete locked state with three occurrences and index 2. -/
theorem nextPrevLockedCaller_wraparound_witness :
    ((true : Bool) = true ∧ (⟨true, occ3, 2⟩ : NavState).locked = true ∧
        occ3 ≠ [] ∧ (0 : Int) ≤ 2) ∧
    (nextLockedCaller true ⟨true, occ3, 2⟩).1 =
      { (⟨true, occ3, 2⟩ : NavState) with
          lockedCallerIndex := ((2 : Int) + 1) % (occ3.length : Int) } :=
  ⟨⟨rfl, rfl, by decide, by decide⟩,
    ((nextPrevLockedCaller_wraparound ⟨true, occ3, 2⟩ true).1 rfl rfl (by decide)
      (by decide)).1⟩

/-! ### C2: the navigation-cursor invariant -/

theorem navInv_mk_locked (occ : List CallerOccurrence) (idx : Int)
    (h1 : -1 ≤ idx) (h2 : idx < max 1 (occ.length : Int)) :
    navInv ⟨true, occ, idx⟩ :=
  ⟨fun h => (nomatch h), fun _ => ⟨h1, h2⟩⟩

theorem navInv_mk_unlocked : navInv ⟨false, [], -1⟩ :=
  ⟨fun _ => ⟨rfl, rfl⟩, fun h => nomatch h⟩

/-- Counterexample to C2: locking a function whose backend report lists zero
callers (from the initial, unlocked state, with a Python editor and non-empty
document) leaves `lockedCallerIndex = 0` over an *empty* occurrence list --
the claimed invariant fails after a single `lock` operation. -/
theorem claimNavInvariant_fails_on_callerless_lock :
    ¬ claimNavInvariant (lockFunctionHighlights true false (some []) navInit) :=
  fun h => (h.2 rfl).1 rfl

/-- C2 (amended): the initial state satisfies `navInv`, and `navInv` is
preserved by every operation of the state machine -- `unlock`, `lock`, `next`,
`prev` and the highlight refresh -- for every editor condition and every
backend outcome. (`navInv` weakens the claimed invariant exactly where the
code departs from it: a lock that finds zero callers leaves index `0` over an
empty list, and a lock taken in an empty document leaves index `-1` while
locked.) -/
theorem navInv_preserved :
    navInv navInit ∧
    ∀ (s : NavState), navInv s →
      ∀ (editorIsPython codeEmpty hasEditor : Bool)
        (fetched : Option (List CallerOccurrence)),
        navInv unlockFunctionHighlights ∧
        navInv (lockFunctionHighlights editorIsPython codeEmpty fetched s) ∧
        navInv (nextLockedCaller hasEditor s).1 ∧
        navInv (prevLockedCaller hasEditor s).1 ∧
        navInv (updateCallerHighlights editorIsPython codeEmpty fetched s) := by
  have hmax : ∀ k : Nat, (1 : Int) ≤ max 1 (k : Int) := fun k => le_max_left _ _
  have hmaxr : ∀ k : Nat, ((k : Int)) ≤ max 1 (k : Int) := fun k => le_max_right _ _
  constructor
  · exact navInv_mk_unlocked
  · rintro ⟨lk, occ, idx⟩ hinv editorIsPython codeEmpty hasEditor fetched
    refine ⟨navInv_mk_unlocked, ?_, ?_, ?_, ?_⟩
    · -- lockFunctionHighlights
      unfold lockFunctionHighlights
      cases editorIsPython with
      | false => simpa using hinv
      | true =>
        cases codeEmpty with
        | true =>
          simp only [Bool.not_true, Bool.false_eq_true, if_false, if_true]
          cases lk with
          | false =>
            obtain ⟨hocc, hidx⟩ := hinv.1 rfl
            simp only at hocc hidx
            subst hocc; subst hidx
            exact navInv_mk_locked _ _ (le_refl _) (by simp)
          | true =>
            obtain ⟨h1, h2⟩ := hinv.2 rfl
            exact navInv_mk_locked _ _ h1 h2
        | false =>
          simp only [Bool.not_true, Bool.false_eq_true, if_false]
          cases fetched with
          | none => exact navInv_mk_unlocked
          | some callers =>
            exact navInv_mk_locked _ _ (by omega)
              (lt_of_lt_of_le Int.zero_lt_one (hmax callers.length))
    · -- nextLockedCaller
      by_cases hg : (!hasEditor || !lk || occ.length == 0) = true
      · simp only [nextLockedCaller, hg, if_true]
        exact hinv
      · have h3 : hasEditor = true ∧ lk = true ∧ occ.length ≠ 0 := by
          cases hasEditor <;> cases lk <;> simp_all
        obtain ⟨hEd, hLk, hlen⟩ := h3
        subst hEd; subst hLk
        simp only [nextLockedCaller, hg, if_false, Bool.false_eq_true]
        obtain ⟨hi1, hi2⟩ := hinv.2 rfl
        simp only at hi1 hi2
        have hb := jsRem_nonneg_lt (idx + 1) (occ.length : Int) (by omega) (by omega)
        exact navInv_mk_locked _ _ (by omega)
          (lt_of_lt_of_le hb.2 (hmaxr occ.length))
    · -- prevLockedCaller
      by_cases hg : (!hasEditor || !lk || occ.length == 0) = true
      · simp only [prevLockedCaller, hg, if_true]
        exact hinv
      · have h3 : hasEditor = true ∧ lk = true ∧ occ.length ≠ 0 := by
          cases hasEditor <;> cases lk <;> simp_all
        obtain ⟨hEd, hLk, hlen⟩ := h3
        subst hEd; subst hLk
        simp only [prevLockedCaller, hg, if_false, Bool.false_eq_true]
        obtain ⟨hi1, hi2⟩ := hinv.2 rfl
        simp only at hi1 hi2
        have hmx : max 1 ((occ.length : Nat) : Int) = ((occ.length : Nat) : Int) := by
          rw [max_eq_right]; omega
        rw [hmx] at hi2
        have hb : 0 ≤ jsRem (idx - 1 + (occ.length : Int)) (occ.length : Int) ∧
            jsRem (idx - 1 + (occ.length : Int)) (occ.length : Int) < (occ.length : Int) := by
          by_cases hd : 0 ≤ idx - 1 + (occ.length : Int)
          · exact jsRem_nonneg_lt _ _ hd (by omega)
          · have hidx1 : idx = -1 := by omega
            have hlen1 : occ.length = 1 := by omega
            rw [hidx1, hlen1]
            constructor <;> decide
        exact navInv_mk_locked _ _ (by omega)
          (lt_of_lt_of_le hb.2 (hmaxr occ.length))
    · -- updateCallerHighlights
      unfold updateCallerHighlights
      cases editorIsPython with
      | false => simpa using hinv
      | true =>
        cases codeEmpty with
        | true => simpa using hinv
        | false =>
          cases lk with
          | false => simpa using hinv
          | true =>
            simp only [Bool.not_true, Bool.false_eq_true, if_false]
            cases fetched with
            | none => exact hinv
            | some callers =>
              dsimp only
              obtain ⟨hi1, hi2⟩ := hinv.2 rfl
              simp only at hi1 hi2
              by_cases hge : idx ≥ (callers.length : Int)
              · rw [if_pos hge]
                exact navInv_mk_locked _ _ (by omega)
                  (lt_of_lt_of_le Int.zero_lt_one (hmax callers.length))
              · rw [if_neg hge]
                exact navInv_mk_locked _ _ (by omega)
                  (lt_of_lt_of_le (by omega) (hmaxr callers.length))

/-- Witness for C2 (amended): `navInv` holds initially and after locking a
function with one caller from the initial state. -/
theorem navInv_preserved_witness :
    navInv navInit ∧ navInv (lockFunctionHighlights true false (some occ3) navInit) :=
  ⟨navInv_preserved.1,
    (navInv_preserved.2 navInit navInv_preserved.1 true false true (some occ3)).2.1⟩

/-! ### C3: relative import resolution -/

/-- Counterexample to C3: `from .. import x` from `a/b.py` — a file with one
directory of ancestry — is *not* unconditionally unresolved. The dot count
(2) equals, and does not exceed, the number of path components of `a/b.py`,
so the guard does not fire; the candidate collapses to the filesystem root
path `/x`, and on a filesystem that has `/x.py` the import resolves. -/
theorem resolveRelativeImport_two_dots_can_resolve :
    resolveRelativeImport rootXFs "a/b.py" "..x" = some "/x.py" := by decide

/-- C3 (amended): the leading dots are counted and the unresolved guard fires
exactly when the dot count strictly exceeds the number of `/`-separated
components of the current path (filename included); for a dot count between 1
and the component count, resolution looks the module up under the current
file's containing package (`components minus the filename`) raised by one
directory level per dot beyond the first; in the boundary case of
`from .. import x` from `a/b.py` the lookup happens at the filesystem root
and is unresolved whenever neither `/x.py` nor `/x/__init__.py` exists. -/
theorem resolveRelativeImport_amended (fs : String → Bool)
    (currentPath relativeImport : String) :
    (leadingDots relativeImport > (splitStr '/' currentPath).length →
      resolveRelativeImport fs currentPath relativeImport = none) ∧
    (1 ≤ leadingDots relativeImport →
      leadingDots relativeImport ≤ (splitStr '/' currentPath).length →
      resolveRelativeImport fs currentPath relativeImport =
        findModuleFile fs
          (joinSlash ((splitStr '/' currentPath).take
              ((splitStr '/' currentPath).length - 1 - (leadingDots relativeImport - 1))) ++
            "/" ++ stripLeadingDots relativeImport)) ∧
    (fs "/x.py" = false → fs "/x/__init__.py" = false →
      resolveRelativeImport fs "a/b.py" "..x" = none) := by
  refine ⟨?_, ?_, ?_⟩
  · intro h
    unfold resolveRelativeImport
    rw [if_pos h]
  · intro h1 h2
    unfold resolveRelativeImport
    rw [if_neg (by omega)]
    have hz : (leadingDots relativeImport == 0) = false := by
      simp only [beq_eq_false_iff_ne, ne_eq]
      omega
    rw [hz]
    simp only [Bool.false_eq_true, if_false]
    have harith : (splitStr '/' currentPath).length - leadingDots relativeImport =
        (splitStr '/' currentPath).length - 1 - (leadingDots relativeImport - 1) := by
      omega
    rw [harith]
  · intro h1 h2
    have e : resolveRelativeImport fs "a/b.py" "..x" = findModuleFile fs "/x" := rfl
    rw [e]
    unfold findModuleFile
    have e1 : ("/x" ++ ".py" : String) = "/x.py" := rfl
    have e2 : ("/x" ++ "/__init__.py" : String) = "/x/__init__.py" := rfl
    rw [e1, e2, h1, h2]
    simp

/-- Witness for C3 (amended) on the empty filesystem: the boundary case is
unresolved there. -/
theorem resolveRelativeImport_amended_witness :
    ((fun _ : String => false) "/x.py" = false ∧
      (fun _ : String => false) "/x/__init__.py" = false) ∧
    resolveRelativeImport (fun _ => false) "a/b.py" "..x" = none :=
  ⟨⟨rfl, rfl⟩, (resolveRelativeImport_amended (fun _ => false) "a/b.py" "..x").2.2 rfl rfl⟩

/-! ### C4: absolute import resolution -/

/-- C4 (code bug): the `__init__` fallback of `resolveAbsoluteImport` can
never resolve. It passes the complete filename `pkg.path + "/__init__.py"` to
`findModuleFile`, which appends `".py"` (probing `…/__init__.py.py`) or
`"/__init__.py"` (probing `…/__init__.py/__init__.py`), so on the filesystem
that contains exactly the package marker `a/__init__.py`, importing `a`
returns unresolved instead of the package's `__init__` file. -/
theorem resolveAbsoluteImport_init_fallback_unreachable :
    pkgAFs "a/__init__.py" = true ∧
    (pkgAMap.lookup "a" = some ⟨"a", true, []⟩) ∧
    findModuleFile pkgAFs ("a" ++ "/__init__.py") = none ∧
    pkgAFs "a/__init__.py.py" = false ∧
    pkgAFs "a/__init__.py/__init__.py" = false ∧
    resolveAbsoluteImport pkgAFs "ws" pkgAMap "a" = none := by decide

/-! ### C5: class-body extraction by indentation -/

/-- Counterexample to C5: in `nestedDefExample` the function `inner`, nested
*inside* method `m` (two indent levels below `class C`), is also recorded as
a method of `C`; the extracted methods `m` (indent 4) and `inner` (indent 8)
do not sit at one common indentation one level deeper than the `class` line,
contradicting the claimed "strictly one level deeper" rule. -/
theorem methodsAtOneIndentLevel_fails_on_nested_def :
    ¬ methodsAtOneIndentLevel nestedDefExample := by
  intro h
  obtain ⟨u, hu, hall⟩ := h ⟨"C", [("m", 2), ("inner", 3)], 1, 4⟩ (by decide)
  have h1 := hall ("m", 2) (by decide)
  have h2 := hall ("inner", 3) (by decide)
  dsimp only at h1 h2
  have e0 : lineIndentAt nestedDefExample 1 = 0 := by decide
  have e1 : lineIndentAt nestedDefExample 2 = 4 := by decide
  have e2 : lineIndentAt nestedDefExample 3 = 8 := by decide
  rw [e1, e0] at h1
  rw [e2, e0] at h2
  omega

/-- C5 (amended): while a class is open, a `def` line at indentation strictly
greater than the `class` line's — by *any* amount, so including defs nested
inside methods — is recorded as that class's method; a `def` line at
indentation ≤ the class's is recorded as a standalone function but does *not*
terminate the class; the class is terminated at the first subsequent
non-blank line that is neither a `def` nor a `class` header and whose
indentation is ≤ the class's own; a `def` outside any open class is a
standalone function. Concretely, `inner` (two levels deep) becomes a method
of `C`. -/
theorem extractStep_indentation_boundary (total i : Nat) (line : String)
    (st : ExtractState) :
    (∀ (c : PyClassInfo) (nm : String),
      st.currentClass = some c → classMatch line = none → defMatch line = some nm →
      getIndentLevel line > st.currentIndent →
      extractStep total i line st =
        { st with currentClass := some { c with methods := c.methods ++ [(nm, i + 1)] } }) ∧
    (∀ (c : PyClassInfo) (nm : String),
      st.currentClass = some c → classMatch line = none → defMatch line = some nm →
      getIndentLevel line ≤ st.currentIndent →
      extractStep total i line st = { st with functions := st.functions ++ [(nm, i + 1)] }) ∧
    (∀ nm : String,
      st.currentClass = none → classMatch line = none → defMatch line = some nm →
      extractStep total i line st = { st with functions := st.functions ++ [(nm, i + 1)] }) ∧
    (∀ c : PyClassInfo,
      st.currentClass = some c → classMatch line = none → defMatch line = none →
      getIndentLevel line ≤ st.currentIndent → jsTrim line ≠ "" →
      extractStep total i line st =
        { st with classes := st.classes ++ [{ c with end_line := i }]
                  currentClass := none }) ∧
    (extractFunctionsAndClasses nestedDefExample =
      ([], [⟨"C", [("m", 2), ("inner", 3)], 1, 4⟩])) := by
  refine ⟨?_, ?_, ?_, ?_, by decide⟩
  · intro c nm hcc hclass hdef h
    simp only [extractStep, hclass, hdef, hcc]
    rw [if_pos h]
  · intro c nm hcc hclass hdef h
    simp only [extractStep, hclass, hdef, hcc]
    rw [if_neg (by omega)]
  · intro nm hcc hclass hdef
    simp only [extractStep, hclass, hdef, hcc]
  · intro c hcc hclass hdef h4 h5
    simp only [extractStep, hclass, hdef, hcc]
    rw [if_pos (by simp [h4, h5, bne_iff_ne])]

/-- Witness for C5 (amended): the deeply nested `def inner():` line, processed
while class `C` (indent 0, one method `m`) is open, is appended to `C`'s
methods. -/
theorem extractStep_indentation_boundary_witness :
    ((⟨[], [], some ⟨"C", [("m", 2)], 1, 4⟩, 0⟩ : ExtractState).currentClass =
        some ⟨"C", [("m", 2)], 1, 4⟩ ∧
      classMatch "        def inner():" = none ∧
      defMatch "        def inner():" = some "inner" ∧
      getIndentLevel "        def inner():" > 0) ∧
    extractStep 4 2 "        def inner():" ⟨[], [], some ⟨"C", [("m", 2)], 1, 4⟩, 0⟩ =
      ⟨[], [], some ⟨"C", [("m", 2), ("inner", 3)], 1, 4⟩, 0⟩ :=
  ⟨⟨rfl, by decide, by decide, by decide⟩,
    (extractStep_indentation_boundary 4 2 "        def inner():"
        ⟨[], [], some ⟨"C", [("m", 2)], 1, 4⟩, 0⟩).1
      ⟨"C", [("m", 2)], 1, 4⟩ "inner" rfl (by decide) (by decide) (by decide)⟩

/-! ### C6: multi-line from-import extraction -/

/-- C6 (code bug): for a parenthesized import list spanning three
continuation lines, the accumulator update `multiLineImport += ' ' + line`
appends `line` — which was already set to `multiLineImport + ' ' + line` —
and therefore duplicates the prefix on every continuation line. Instead of
one record per imported name (`a`, `b`, `c`), extraction emits four records,
two of which carry the garbage names `"from m import  a"` and
`"from m import  from m import  a"`; the name `a` is never recorded on its
own. -/
theorem extractImports_multiline_accumulator_bug :
    extractImports multiLineImportExample =
      [⟨"from_import", "m", some "from m import  a", none, 4, -1⟩,
       ⟨"from_import", "m", some "from m import  from m import  a", none, 4, -1⟩,
       ⟨"from_import", "m", some "b", none, 4, -1⟩,
       ⟨"from_import", "m", some "c", none, 4, 4⟩] ∧
    ∀ r ∈ extractImports multiLineImportExample, r.imp ≠ some "a" := by
  constructor
  · decide
  · decide

/-! ### C7: per-file failures do not discard other files' findings -/

theorem mem_deadcode_foldl_of_mem_acc
    (backend : String → Except String DeadCodeReport) (d : DeadFunction) :
    ∀ (files : List String) (acc : List DeadFunction), d ∈ acc →
      d ∈ files.foldl (fun acc targetFile =>
        match backend targetFile with
        | .ok report => acc ++ report.dead_functions
        | .error _ => acc) acc := by
  intro files
  induction files with
  | nil => intro acc h; exact h
  | cons x xs ih =>
    intro acc h
    simp only [List.foldl_cons]
    apply ih
    cases hbx : backend x with
    | ok report => simp [h]
    | error e => simp [h]

/-- C7: the dead-code aggregation loop preserves partial results — for every
backend behavior (hence every subset of failing files), every dead function
reported for a file whose per-file analysis succeeded is in the aggregated
list handed to the diagnostics stage. -/
theorem deadcode_partial_results_preserved
    (backend : String → Except String DeadCodeReport) (files : List String)
    (f : String) (report : DeadCodeReport) (d : DeadFunction)
    (hf : f ∈ files) (hr : backend f = .ok report) (hd : d ∈ report.dead_functions) :
    d ∈ updateProjectWideDeadCodeDiagnostics backend files := by
  unfold updateProjectWideDeadCodeDiagnostics
  suffices h : ∀ (fs : List String) (acc : List DeadFunction), f ∈ fs →
      d ∈ fs.foldl (fun acc targetFile =>
        match backend targetFile with
        | .ok report => acc ++ report.dead_functions
        | .error _ => acc) acc by
    exact h files [] hf
  intro fs
  induction fs with
  | nil => intro acc h; cases h
  | cons x xs ih =>
    intro acc hmem
    simp only [List.foldl_cons]
    rcases List.mem_cons.mp hmem with hx | hxs
    · subst hx
      apply mem_deadcode_foldl_of_mem_acc
      rw [hr]
      exact List.mem_append.mpr (Or.inr hd)
    · exact ih _ hxs

/-- Witness for C7: with `a.py` succeeding and `b.py` failing, the dead
function reported for `a.py` is in the aggregate. -/
theorem deadcode_partial_results_preserved_witness :
    ("a.py" ∈ ["a.py", "b.py"] ∧
      (fun f => if f == "a.py" then Except.ok (⟨[⟨"unused", 3, 5, "never called"⟩]⟩ :
          DeadCodeReport) else Except.error "analysis failed") "a.py" =
        Except.ok ⟨[⟨"unused", 3, 5, "never called"⟩]⟩ ∧
      (⟨"unused", 3, 5, "never called"⟩ : DeadFunction) ∈
        [(⟨"unused", 3, 5, "never called"⟩ : DeadFunction)]) ∧
    (⟨"unused", 3, 5, "never called"⟩ : DeadFunction) ∈
      updateProjectWideDeadCodeDiagnostics
        (fun f => if f == "a.py" then Except.ok ⟨[⟨"unused", 3, 5, "never called"⟩]⟩
          else Except.error "analysis failed") ["a.py", "b.py"] :=
  ⟨⟨by decide, rfl, by decide⟩,
    deadcode_partial_results_preserved
      (fun f => if f == "a.py" then Except.ok ⟨[⟨"unused", 3, 5, "never called"⟩]⟩
        else Except.error "analysis failed")
      ["a.py", "b.py"] "a.py" ⟨[⟨"unused", 3, 5, "never called"⟩]⟩
      ⟨"unused", 3, 5, "never called"⟩ (by decide) rfl (by decide)⟩

/-! ### C8: per-request time budgets -/

/-- Counterexample to C8: cross-file highlight extraction
(`/extract-highlights`, the endpoint of `getHighlightsFromProject`) is *not*
given the long 90 s budget — it falls into the 15 s default, although it is a
whole-project batch query. -/
theorem extractHighlights_gets_short_budget :
    requestTimeoutMs extractHighlightsEndpoint = 15000 ∧ (15000 : Nat) ≠ 90000 := by
  decide

/-- C8 (amended): every request issued through `BackendClient.request`
carries a positive finite budget, chosen by endpoint name alone: `/deadcode`,
`/codelens` and `/analyze-project` get 90 s (including the single-file
dead-code and codelens variants, which share those endpoints), and every
other endpoint — including cross-file highlight extraction
`/extract-highlights` — gets the 15 s default. -/
theorem requestTimeout_by_endpoint :
    (∀ endpoint : String, 0 < requestTimeoutMs endpoint) ∧
    requestTimeoutMs deadcodeEndpoint = 90000 ∧
    requestTimeoutMs codelensEndpoint = 90000 ∧
    requestTimeoutMs analyzeProjectEndpoint = 90000 ∧
    requestTimeoutMs analyzeEndpoint = 15000 ∧
    requestTimeoutMs highlightEndpoint = 15000 ∧
    requestTimeoutMs navigateEndpoint = 15000 ∧
    requestTimeoutMs extractHighlightsEndpoint = 15000 := by
  refine ⟨fun endpoint => ?_, by decide, by decide, by decide, by decide, by decide,
    by decide, by decide⟩
  unfold requestTimeoutMs
  split <;> omega

/-! ### C9: the 500-file cap -/

theorem readProjectFiles_foldl_length (readF : String → Option String) :
    ∀ (fileList : List String) (acc : List (String × String)),
      (fileList.foldl (fun acc f =>
        match readF f with
        | some content => acc ++ [(f, content)]
        | none => acc) acc).length ≤ acc.length + fileList.length := by
  intro fileList
  induction fileList with
  | nil => intro acc; simp
  | cons x xs ih =>
    intro acc
    simp only [List.foldl_cons, List.length_cons]
    cases hx : readF x with
    | some content =>
      calc _ ≤ (acc ++ [(x, content)]).length + xs.length := ih _
        _ = acc.length + (xs.length + 1) := by simp [List.length_append]; omega
    | none =>
      calc _ ≤ acc.length + xs.length := ih _
        _ ≤ acc.length + (xs.length + 1) := by omega

/-- C9: the collected project-file map always has at most 500 entries; when
more than 500 Python files match, the user is warned and exactly the first
500 matches are kept (reading then proceeds on that truncated list), and
otherwise no warning is shown and all matches are read. -/
theorem collectProjectFiles_cap (matched : List String) (readF : String → Option String) :
    (collectProjectFiles matched readF).2.length ≤ 500 ∧
    (matched.length > 500 →
      (collectProjectFiles matched readF).1 = true ∧
      (collectProjectFiles matched readF).2 = readProjectFiles (matched.take 500) readF) ∧
    (matched.length ≤ 500 →
      (collectProjectFiles matched readF).1 = false ∧
      (collectProjectFiles matched readF).2 = readProjectFiles matched readF) := by
  have hlen : ∀ l : List String, (readProjectFiles l readF).length ≤ l.length := by
    intro l
    have := readProjectFiles_foldl_length readF l []
    simpa [readProjectFiles] using this
  refine ⟨?_, ?_, ?_⟩
  · unfold collectProjectFiles
    by_cases h : matched.length > 500
    · rw [if_pos h]
      calc (readProjectFiles (matched.take 500) readF).length
          ≤ (matched.take 500).length := hlen _
        _ ≤ 500 := by simp
    · rw [if_neg h]
      calc (readProjectFiles matched readF).length ≤ matched.length := hlen _
        _ ≤ 500 := by omega
  · intro h
    unfold collectProjectFiles
    rw [if_pos h]
    exact ⟨by simp [h], rfl⟩
  · intro h
    unfold collectProjectFiles
    rw [if_neg (by omega)]
    exact ⟨by simp; omega, rfl⟩

/-- Witness for C9: 501 matched files trigger the warning and the truncation
to the first 500. -/
theorem collectProjectFiles_cap_witness :
    (List.replicate 501 "f.py").length > 500 ∧
    (collectProjectFiles (List.replicate 501 "f.py") (fun _ => some "pass")).1 = true :=
  ⟨by rw [List.length_replicate]; omega,
    ((collectProjectFiles_cap (List.replicate 501 "f.py") (fun _ => some "pass")).2.1
      (by rw [List.length_replicate]; omega)).1⟩

/-! ### C10: star imports are dropped -/

theorem aliasMatch_fst (item : String) (a b : String)
    (h : aliasMatch item = some (a, b)) : a = ⟨item.data.takeWhile isDottedChar⟩ := by
  unfold aliasMatch at h
  dsimp only at h
  repeat' split at h
  any_goals exact Option.noConfusion h
  injection h with h2
  simpa using (congrArg Prod.fst h2).symm

theorem aliasMatch_fst_ne_star (item : String) (a b : String)
    (h : aliasMatch item = some (a, b)) : a ≠ "*" := by
  intro ha
  have h1 := aliasMatch_fst item a b h
  rw [ha] at h1
  have hdata : (['*'] : List Char) = item.data.takeWhile isDottedChar :=
    congrArg String.data h1
  have hmem : ('*' : Char) ∈ item.data.takeWhile isDottedChar := by
    rw [← hdata]; exact List.mem_singleton.mpr rfl
  have := List.mem_takeWhile_imp hmem
  exact absurd this (by decide)

theorem parseFromImports_foldl_star_free (orig : String) (i : Nat) (m : String) :
    ∀ (items : List String) (acc : List ImportRecord),
      (∀ r ∈ acc, ∃ s, r.imp = some s ∧ s ≠ "*") →
      ∀ r ∈ items.foldl (fun acc item =>
        if item == "" then acc
        else
          match aliasMatch item with
          | some (g1, g2) =>
              acc ++ [⟨"from_import", m, some g1, some g2, i + 1, jsIndexOf orig item⟩]
          | none =>
              if item != "*" then
                acc ++ [⟨"from_import", m, some item, none, i + 1, jsIndexOf orig item⟩]
              else acc) acc,
      ∃ s, r.imp = some s ∧ s ≠ "*" := by
  intro items
  induction items with
  | nil => intro acc hacc r hr; exact hacc r hr
  | cons x xs ih =>
    intro acc hacc r hr
    simp only [List.foldl_cons] at hr
    refine ih _ ?_ r hr
    intro r' hr'
    by_cases hx : (x == "") = true
    · rw [if_pos hx] at hr'
      exact hacc r' hr'
    · rw [if_neg hx] at hr'
      cases hal : aliasMatch x with
      | some p =>
        obtain ⟨g1, g2⟩ := p
        rw [hal] at hr'
        rcases List.mem_append.mp hr' with h1 | h1
        · exact hacc r' h1
        · rw [List.mem_singleton.mp h1]
          exact ⟨g1, rfl, aliasMatch_fst_ne_star x g1 g2 hal⟩
      | none =>
        rw [hal] at hr'
        by_cases hs : (x != "*") = true
        · rw [if_pos hs] at hr'
          rcases List.mem_append.mp hr' with h1 | h1
          · exact hacc r' h1
          · rw [List.mem_singleton.mp h1]
            exact ⟨x, rfl, by simpa using hs⟩
        · rw [if_neg hs] at hr'
          exact hacc r' hr'

theorem parseFromImports_star_free (orig : String) (i : Nat) (m caps : String) :
    ∀ r ∈ parseFromImports orig i m caps, ∃ s, r.imp = some s ∧ s ≠ "*" := by
  intro r hr
  unfold parseFromImports at hr
  exact parseFromImports_foldl_star_free orig i m ((splitStr ',' caps).map jsTrim) []
    (fun r' h => absurd h (List.not_mem_nil r')) r hr

theorem parseRegularImports_type (orig : String) (i : Nat) (caps : String) :
    ∀ r ∈ parseRegularImports orig i caps, r.type = "import" := by
  intro r hr
  unfold parseRegularImports at hr
  rcases List.mem_map.mp hr with ⟨module, _, hEq⟩
  cases hal : aliasMatch module with
  | some p =>
    obtain ⟨a, b⟩ := p
    rw [hal] at hEq
    rw [← hEq]
  | none =>
    rw [hal] at hEq
    rw [← hEq]

theorem parseImportLine_star_free (orig : String) (i : Nat) (line : String) :
    ∀ r ∈ parseImportLine orig i line, r.type = "from_import" →
      ∃ s, r.imp = some s ∧ s ≠ "*" := by
  intro r hr htype
  unfold parseImportLine at hr
  cases him : importMatch line with
  | some caps =>
    rw [him] at hr
    have ht := parseRegularImports_type orig i caps r hr
    rw [ht] at htype
    exact absurd htype (by decide)
  | none =>
    rw [him] at hr
    cases hfrom : fromImportMatch line with
    | some p =>
      obtain ⟨m, caps⟩ := p
      rw [hfrom] at hr
      exact parseFromImports_star_free orig i m caps r hr
    | none =>
      rw [hfrom] at hr
      exact absurd hr (List.not_mem_nil r)

theorem extractImportsStep_star_free (i : Nat) (orig : String)
    (st : Option String × List ImportRecord)
    (hst : ∀ r ∈ st.2, r.type = "from_import" → ∃ s, r.imp = some s ∧ s ≠ "*") :
    ∀ r ∈ (extractImportsStep i orig st).2, r.type = "from_import" →
      ∃ s, r.imp = some s ∧ s ≠ "*" := by
  intro r hr htype
  obtain ⟨ml, acc⟩ := st
  unfold extractImportsStep at hr
  cases ml with
  | some m =>
    dsimp only at hr
    by_cases hc : containsChar ')' (m ++ " " ++ jsTrim orig) = true
    · rw [if_pos hc] at hr
      rcases List.mem_append.mp hr with h | h
      · exact hst r h htype
      · exact parseImportLine_star_free orig i _ r h htype
    · rw [if_neg hc] at hr
      exact hst r hr htype
  | none =>
    dsimp only at hr
    by_cases hc : (containsChar '(' (jsTrim orig) && !containsChar ')' (jsTrim orig)) = true
    · rw [if_pos hc] at hr
      exact hst r hr htype
    · rw [if_neg hc] at hr
      rcases List.mem_append.mp hr with h | h
      · exact hst r h htype
      · exact parseImportLine_star_free orig i _ r h htype

theorem extractImportsGo_star_free :
    ∀ (lines : List String) (i : Nat) (st : Option String × List ImportRecord),
      (∀ r ∈ st.2, r.type = "from_import" → ∃ s, r.imp = some s ∧ s ≠ "*") →
      ∀ r ∈ (extractImportsGo i lines st).2, r.type = "from_import" →
        ∃ s, r.imp = some s ∧ s ≠ "*" := by
  intro lines
  induction lines with
  | nil => intro i st hst; exact hst
  | cons l ls ih =>
    intro i st hst
    exact ih (i + 1) (extractImportsStep i l st) (extractImportsStep_star_free i l st hst)

/-- C10: `from M import *` produces no import record at all, and — for every
file text — every from-import record carries a concrete imported symbol name
different from `"*"` (the alias regex's character class cannot capture `*`,
and plain items equal to `"*"` are explicitly skipped). -/
theorem extractImports_star_dropped :
    extractImports "from m import *" = [] ∧
    ∀ (content : String) (r : ImportRecord), r ∈ extractImports content →
      r.type = "from_import" → ∃ s, r.imp = some s ∧ s ≠ "*" := by
  constructor
  · decide
  · intro content r hr htype
    unfold extractImports at hr
    exact extractImportsGo_star_free (splitStr '\n' content) 0 (none, [])
      (fun r' h => absurd h (List.not_mem_nil r')) r hr htype

/-- Witness for C10: the from-import record extracted from
`from m import a` carries the concrete name `a`. -/
theorem extractImports_star_dropped_witness :
    ((⟨"from_import", "m", some "a", none, 1, 14⟩ : ImportRecord) ∈
        extractImports "from m import a" ∧
      (⟨"from_import", "m", some "a", none, 1, 14⟩ : ImportRecord).type = "from_import") ∧
    ∃ s, (⟨"from_import", "m", some "a", none, 1, 14⟩ : ImportRecord).imp = some s ∧
      s ≠ "*" :=
  ⟨⟨by decide, rfl⟩,
    extractImports_star_dropped.2 "from m import a" _ (by decide) rfl⟩

end Vertex
